import Mathlib

/-
  Shallow embedding of FakeHLF_PseudoCode::do_work
  (src/FakeHLF_PseudoCode.cpp, lines 94-198).

  The worker loop is modelled as a deterministic step machine over an
  explicit program counter.  Every point where the C++ loop consults the
  environment -- a read of the atomic running_flag, or the completion of a
  timeout-bounded endpoint call (success or TransportTimeoutExpired) --
  consumes one Bool from an input stream.  The machine emits an event trace:
  one `attempt` event per completed endpoint call, one `warn` event per
  ers::warning emitted by the code, and one `summary` event for the final
  ers::info(ProgressUpdate ...).

  Identifier normalisation (the source file is explicitly pseudocode and
  contains identifier slips that would not compile):
  - line 132 increments `requestTRCount`, which is undeclared; the declared
    counter (line 100) is `requestedTRCount` and is clearly the intent; the
    model increments `requestedTRCount`.
  - the summary string (lines 192-195) interpolates `TRsPerRequest`, which
    is undeclared; the declared constant (line 98) is `TRsToRequestEachTime`
    and is clearly the intent.  It also interpolates `processedCount`, which
    is undeclared and corresponds to no counter in the function; it is not
    modelled.
  The batch size `TRsToRequestEachTime` (hard-coded 1 in the source) is kept
  as a parameter `N` of the machine so that claims quantified over batch
  sizes can be stated; the source value is `TRsToRequestEachTime = 1`.
-/

namespace FakeHLF

/-- Batch size constant from the source, line 98:
`const int TRsToRequestEachTime = 1;`. -/
def TRsToRequestEachTime : Nat := 1

/-- The three endpoints used by do_work: requestSender_ (line 119),
dataReceiver_ (line 147), resultSender_ (line 175). -/
inductive EP where
  | requestSender
  | dataReceiver
  | resultSender
deriving Repr, DecidableEq, BEq

/-- Control locations of do_work at which one Bool of input is consumed.
Flag locations consume a read of running_flag; operation locations consume
the outcome of one endpoint call (true = success, false = timeout).
- `outerFlag`: line 104, `while (running_flag.load())`.
- `reqSend`: line 119, `requestSender_->send(trReq, requestSendTimeout_)`.
- `awaitFlag`: line 138, the running_flag read in
  `while (trigRecLeftToReceive > 0 && running_flag.load())`; by
  short-circuit it is only reached when trigRecLeftToReceive > 0.
- `recvFlag`: line 142, the running_flag read in
  `while (!trigRecWasSuccessfullyReceived && running_flag.load())`.
- `recvOp`: line 147, `dataReceiver_->receive(trigRec, dataReceiveTimeout_)`.
- `sendFlag`: line 170, the running_flag read in
  `while (!trigRecWasSuccessfullySent && running_flag.load())`.
- `sendOp`: line 175, `resultSender_->send(trigRec, resultSendTimeout_)`.
- `exited`: after the summary at line 196; absorbing. -/
inductive PC where
  | outerFlag
  | reqSend
  | awaitFlag
  | recvFlag
  | recvOp
  | sendFlag
  | sendOp
  | exited
deriving Repr, DecidableEq, BEq

/-- Observable events of the loop.
- `attempt ep ok`: one endpoint call on `ep` completed, successfully when
  `ok`, with TransportTimeoutExpired when `!ok`.
- `warn ep`: one ers::warning emitted, naming endpoint `ep`
  (lines 125-126 for the request sender, lines 158-159 for the data
  receiver; the result-sender catch block at lines 179-183 emits none).
- `summary requests itemsPerRequest received sent`: the single
  ers::info(ProgressUpdate ...) at line 196, interpolating requestCount,
  TRsToRequestEachTime, receivedCount and sentCount. -/
inductive Ev where
  | attempt (ep : EP) (ok : Bool)
  | warn (ep : EP)
  | summary (requests itemsPerRequest received sent : Nat)
deriving Repr, DecidableEq, BEq

/-- State of do_work: the four counters declared at lines 99-102, the
per-batch remaining count declared at line 137, and the control location. -/
structure WState where
  requestCount : Nat
  requestedTRCount : Nat
  receivedCount : Nat
  sentCount : Nat
  trigRecLeftToReceive : Nat
  pc : PC
deriving Repr, DecidableEq, BEq

/-- State at entry to the loop: all four counters zero (lines 99-102),
control at the outer running_flag check (line 104). -/
def initState : WState :=
  { requestCount := 0
    requestedTRCount := 0
    receivedCount := 0
    sentCount := 0
    trigRecLeftToReceive := 0
    pc := PC.outerFlag }

/-- Control transfer back to the condition of the inner batch loop at
line 138, `while (trigRecLeftToReceive > 0 && running_flag.load())`.
By short-circuit evaluation the flag is read (location `awaitFlag`) only
when trigRecLeftToReceive > 0; otherwise control falls through to the end
of the outer loop body (line 188) and then to the outer check (line 104). -/
def afterItem (s : WState) : WState :=
  if 0 < s.trigRecLeftToReceive then { s with pc := PC.awaitFlag }
  else { s with pc := PC.outerFlag }

/-- One step of do_work, consuming one Bool of environment input `b`.
At a flag location, `b` is the value read from running_flag; at an
operation location, `b` tells whether the call succeeded (`true`) or threw
TransportTimeoutExpired (`false`).  Returns the next state and the events
emitted by this step. -/
def step (N : Nat) (s : WState) (b : Bool) : WState × List Ev :=
  match s.pc with
  | PC.outerFlag =>
      if b then
        ({ s with pc := PC.reqSend }, [])
      else
        ({ s with pc := PC.exited },
         [Ev.summary s.requestCount N s.receivedCount s.sentCount])
  | PC.reqSend =>
      if b then
        (afterItem { s with
            requestCount := s.requestCount + 1
            requestedTRCount := s.requestedTRCount + N
            trigRecLeftToReceive := N },
         [Ev.attempt EP.requestSender true])
      else
        ({ s with pc := PC.outerFlag },
         [Ev.attempt EP.requestSender false, Ev.warn EP.requestSender])
  | PC.awaitFlag =>
      if b then ({ s with pc := PC.recvFlag }, [])
      else ({ s with pc := PC.outerFlag }, [])
  | PC.recvFlag =>
      if b then ({ s with pc := PC.recvOp }, [])
      else (afterItem s, [])
  | PC.recvOp =>
      if b then
        ({ s with
            receivedCount := s.receivedCount + 1
            trigRecLeftToReceive := s.trigRecLeftToReceive - 1
            pc := PC.sendFlag },
         [Ev.attempt EP.dataReceiver true])
      else
        ({ s with pc := PC.recvFlag },
         [Ev.attempt EP.dataReceiver false, Ev.warn EP.dataReceiver])
  | PC.sendFlag =>
      if b then ({ s with pc := PC.sendOp }, [])
      else (afterItem s, [])
  | PC.sendOp =>
      if b then
        (afterItem { s with sentCount := s.sentCount + 1 },
         [Ev.attempt EP.resultSender true])
      else
        ({ s with pc := PC.sendFlag },
         [Ev.attempt EP.resultSender false])
  | PC.exited => (s, [])

/-- Run the machine on a list of environment inputs, concatenating the
emitted events. -/
def run (N : Nat) (s : WState) : List Bool → WState × List Ev
  | [] => (s, [])
  | b :: bs =>
      let p := step N s b
      let q := run N p.1 bs
      (q.1, p.2 ++ q.2)

/-- States reachable during one execution of the worker loop. -/
inductive Reachable (N : Nat) : WState → Prop where
  | init : Reachable N initState
  | next (s : WState) (b : Bool) : Reachable N s → Reachable N (step N s b).1

/-- Recogniser for endpoint-call events. -/
def isAttempt : Ev → Bool
  | Ev.attempt _ _ => true
  | _ => false

/-- Recogniser for the final summary event. -/
def isSummary : Ev → Bool
  | Ev.summary _ _ _ _ => true
  | _ => false

/-- Recogniser for the running_flag read locations (as opposed to the
endpoint-operation locations and the terminal location). -/
def isFlagPC : PC → Bool
  | PC.outerFlag => true
  | PC.awaitFlag => true
  | PC.recvFlag => true
  | PC.sendFlag => true
  | _ => false

/-- The four counters of the loop as a tuple, in declaration order
(lines 99-102). -/
def counters (s : WState) : Nat × Nat × Nat × Nat :=
  (s.requestCount, s.requestedTRCount, s.receivedCount, s.sentCount)

@[simp]
theorem afterItem_requestCount (s : WState) :
    (afterItem s).requestCount = s.requestCount := by
  unfold afterItem; split <;> rfl

@[simp]
theorem afterItem_requestedTRCount (s : WState) :
    (afterItem s).requestedTRCount = s.requestedTRCount := by
  unfold afterItem; split <;> rfl

@[simp]
theorem afterItem_receivedCount (s : WState) :
    (afterItem s).receivedCount = s.receivedCount := by
  unfold afterItem; split <;> rfl

@[simp]
theorem afterItem_sentCount (s : WState) :
    (afterItem s).sentCount = s.sentCount := by
  unfold afterItem; split <;> rfl

@[simp]
theorem afterItem_left (s : WState) :
    (afterItem s).trigRecLeftToReceive = s.trigRecLeftToReceive := by
  unfold afterItem; split <;> rfl

theorem afterItem_pc (s : WState) :
    (afterItem s).pc = PC.awaitFlag ∨ (afterItem s).pc = PC.outerFlag := by
  unfold afterItem; split
  · exact Or.inl rfl
  · exact Or.inr rfl

@[simp]
theorem run_nil (N : Nat) (s : WState) : run N s [] = (s, []) := rfl

theorem run_cons (N : Nat) (s : WState) (b : Bool) (bs : List Bool) :
    run N s (b :: bs) =
      ((run N (step N s b).1 bs).1, (step N s b).2 ++ (run N (step N s b).1 bs).2) := rfl

theorem run_exited (N : Nat) (s : WState) (h : s.pc = PC.exited) :
    ∀ l : List Bool, run N s l = (s, [])
  | [] => rfl
  | b :: bs => by
      have hstep : step N s b = (s, []) := by
        unfold step; rw [h]
      rw [run_cons, hstep]
      simp [run_exited N s h bs]

theorem reachable_run (N : Nat) {s : WState} (h : Reachable N s) :
    ∀ l : List Bool, Reachable N (run N s l).1
  | [] => h
  | b :: bs => reachable_run N (Reachable.next s b h) bs

/-- Inductive invariant of the loop state, established at entry and
preserved by every step:
1. the cumulative item counter is the batch size times the request counter;
2. no item is counted as sent before it was counted as received;
3. received items plus the remainder still owed never exceed what was
   requested;
4. the inner batch locations are only reached with a positive remainder;
5. the send-stage locations are only reached with one received item not
   yet counted as sent. -/
def Inv (N : Nat) (s : WState) : Prop :=
  s.requestedTRCount = N * s.requestCount ∧
  s.sentCount ≤ s.receivedCount ∧
  s.receivedCount + s.trigRecLeftToReceive ≤ N * s.requestCount ∧
  ((s.pc = PC.awaitFlag ∨ s.pc = PC.recvFlag ∨ s.pc = PC.recvOp) →
    0 < s.trigRecLeftToReceive) ∧
  ((s.pc = PC.sendFlag ∨ s.pc = PC.sendOp) → s.sentCount < s.receivedCount)

theorem inv_init (N : Nat) : Inv N initState := by
  refine ⟨rfl, le_refl 0, ?_, ?_, ?_⟩
  · simp [initState]
  · intro h
    rcases h with h | h | h <;> simp [initState] at h
  · intro h
    rcases h with h | h <;> simp [initState] at h

theorem inv_retarget (N : Nat) (t : WState) (p : PC)
    (h1 : t.requestedTRCount = N * t.requestCount)
    (h2 : t.sentCount ≤ t.receivedCount)
    (h3 : t.receivedCount + t.trigRecLeftToReceive ≤ N * t.requestCount)
    (h4 : (p = PC.awaitFlag ∨ p = PC.recvFlag ∨ p = PC.recvOp) →
      0 < t.trigRecLeftToReceive)
    (h5 : (p = PC.sendFlag ∨ p = PC.sendOp) → t.sentCount < t.receivedCount) :
    Inv N { t with pc := p } :=
  ⟨h1, h2, h3, h4, h5⟩

theorem inv_afterItem (N : Nat) (t : WState)
    (h1 : t.requestedTRCount = N * t.requestCount)
    (h2 : t.sentCount ≤ t.receivedCount)
    (h3 : t.receivedCount + t.trigRecLeftToReceive ≤ N * t.requestCount) :
    Inv N (afterItem t) := by
  unfold afterItem
  split
  next hlt =>
    exact ⟨h1, h2, h3, fun _ => hlt, fun hc => by simp at hc⟩
  next hge =>
    exact ⟨h1, h2, h3, fun hc => by simp at hc, fun hc => by simp at hc⟩

theorem inv_step (N : Nat) (s : WState) (b : Bool) (h : Inv N s) :
    Inv N (step N s b).1 := by
  obtain ⟨h1, h2, h3, h4, h5⟩ := h
  cases hpc : s.pc <;> cases b
  · -- outerFlag, flag reads false: emit summary, move to exited
    simp only [step, hpc]
    simp only [Bool.false_eq_true, if_false]
    exact inv_retarget N s PC.exited h1 h2 h3
      (fun hc => by simp at hc) (fun hc => by simp at hc)
  · -- outerFlag, flag reads true: move to the request send
    simp only [step, hpc]
    simp only [if_true]
    exact inv_retarget N s PC.reqSend h1 h2 h3
      (fun hc => by simp at hc) (fun hc => by simp at hc)
  · -- reqSend, timeout: warn and continue to the outer check
    simp only [step, hpc]
    simp only [Bool.false_eq_true, if_false]
    exact inv_retarget N s PC.outerFlag h1 h2 h3
      (fun hc => by simp at hc) (fun hc => by simp at hc)
  · -- reqSend, success: increment request counters, owe N items
    simp only [step, hpc]
    simp only [if_true]
    refine inv_afterItem N _ ?_ ?_ ?_
    · show s.requestedTRCount + N = N * (s.requestCount + 1)
      rw [h1]; ring
    · exact h2
    · show s.receivedCount + N ≤ N * (s.requestCount + 1)
      have hr : s.receivedCount ≤ N * s.requestCount :=
        le_trans (Nat.le_add_right _ _) h3
      calc s.receivedCount + N ≤ N * s.requestCount + N :=
            Nat.add_le_add_right hr N
        _ = N * (s.requestCount + 1) := by ring
  · -- awaitFlag, flag reads false: leave the batch loop
    simp only [step, hpc]
    simp only [Bool.false_eq_true, if_false]
    exact inv_retarget N s PC.outerFlag h1 h2 h3
      (fun hc => by simp at hc) (fun hc => by simp at hc)
  · -- awaitFlag, flag reads true: go receive
    simp only [step, hpc]
    simp only [if_true]
    exact inv_retarget N s PC.recvFlag h1 h2 h3
      (fun _ => h4 (Or.inl hpc)) (fun hc => by simp at hc)
  · -- recvFlag, flag reads false: back to the batch condition
    simp only [step, hpc]
    simp only [Bool.false_eq_true, if_false]
    exact inv_afterItem N s h1 h2 h3
  · -- recvFlag, flag reads true: perform the receive
    simp only [step, hpc]
    simp only [if_true]
    exact inv_retarget N s PC.recvOp h1 h2 h3
      (fun _ => h4 (Or.inr (Or.inl hpc))) (fun hc => by simp at hc)
  · -- recvOp, timeout: warn and retry the receive
    simp only [step, hpc]
    simp only [Bool.false_eq_true, if_false]
    exact inv_retarget N s PC.recvFlag h1 h2 h3
      (fun _ => h4 (Or.inr (Or.inr hpc))) (fun hc => by simp at hc)
  · -- recvOp, success: count the item, one fewer owed, go send
    simp only [step, hpc]
    simp only [if_true]
    have hl : 0 < s.trigRecLeftToReceive := h4 (Or.inr (Or.inr hpc))
    have heq : s.receivedCount + 1 + (s.trigRecLeftToReceive - 1) =
        s.receivedCount + s.trigRecLeftToReceive := by omega
    refine ⟨h1, le_trans h2 (Nat.le_succ _), ?_, fun hc => by simp at hc,
      fun _ => Nat.lt_succ_of_le h2⟩
    show s.receivedCount + 1 + (s.trigRecLeftToReceive - 1) ≤
      N * s.requestCount
    rw [heq]; exact h3
  · -- sendFlag, flag reads false: drop the item, back to the batch condition
    simp only [step, hpc]
    simp only [Bool.false_eq_true, if_false]
    exact inv_afterItem N s h1 h2 h3
  · -- sendFlag, flag reads true: perform the result send
    simp only [step, hpc]
    simp only [if_true]
    exact inv_retarget N s PC.sendOp h1 h2 h3
      (fun hc => by simp at hc) (fun _ => h5 (Or.inl hpc))
  · -- sendOp, timeout: silently retry the send
    simp only [step, hpc]
    simp only [Bool.false_eq_true, if_false]
    exact inv_retarget N s PC.sendFlag h1 h2 h3
      (fun hc => by simp at hc) (fun _ => h5 (Or.inr hpc))
  · -- sendOp, success: count the item as sent, back to the batch condition
    simp only [step, hpc]
    simp only [if_true]
    refine inv_afterItem N _ ?_ ?_ ?_
    · exact h1
    · exact h5 (Or.inr hpc)
    · exact h3
  · -- exited is absorbing
    simp only [step, hpc]
    exact ⟨h1, h2, h3, h4, h5⟩
  · -- exited is absorbing
    simp only [step, hpc]
    exact ⟨h1, h2, h3, h4, h5⟩

theorem inv_run (N : Nat) {s : WState} (h : Inv N s) :
    ∀ l : List Bool, Inv N (run N s l).1
  | [] => h
  | b :: bs => inv_run N (inv_step N s b h) bs

theorem reachable_inv (N : Nat) {s : WState} (h : Reachable N s) : Inv N s := by
  induction h with
  | init => exact inv_init N
  | next t b _ ih => exact inv_step N t b ih

theorem afterItem_pc_ne (t : WState) : (afterItem t).pc ≠ PC.exited := by
  rcases afterItem_pc t with h | h <;> rw [h] <;> simp

theorem step_summary_emit (N : Nat) (s : WState) (h : s.pc = PC.outerFlag) :
    step N s false =
      ({ s with pc := PC.exited },
       [Ev.summary s.requestCount N s.receivedCount s.sentCount]) := by
  unfold step
  rw [h]
  simp

theorem step_summary_none (N : Nat) (s : WState) (b : Bool)
    (h : ¬(s.pc = PC.outerFlag ∧ b = false)) :
    (step N s b).2.filter isSummary = [] := by
  cases hpc : s.pc <;> cases b <;>
    (simp [step, hpc, isSummary] <;> exact h ⟨hpc, rfl⟩)

theorem step_pc_ne (N : Nat) (s : WState) (b : Bool) (hne : s.pc ≠ PC.exited)
    (h : ¬(s.pc = PC.outerFlag ∧ b = false)) :
    (step N s b).1.pc ≠ PC.exited := by
  cases hpc : s.pc <;> cases b
  · exact absurd ⟨hpc, rfl⟩ h
  · simp [step, hpc]
  · simp [step, hpc]
  · simp only [step, hpc, if_true]
    exact afterItem_pc_ne _
  · simp [step, hpc]
  · simp [step, hpc]
  · simp only [step, hpc]
    rw [if_neg (by simp)]
    exact afterItem_pc_ne _
  · simp [step, hpc]
  · simp [step, hpc]
  · simp [step, hpc]
  · simp only [step, hpc]
    rw [if_neg (by simp)]
    exact afterItem_pc_ne _
  · simp [step, hpc]
  · simp [step, hpc]
  · simp only [step, hpc, if_true]
    exact afterItem_pc_ne _
  · exact absurd hpc hne
  · exact absurd hpc hne

/-- Exactly-one-summary lemma: starting anywhere inside the loop, a run
that ends at the terminal location has emitted the summary exactly once,
and that summary carries the final values of the counters it interpolates. -/
theorem one_summary (N : Nat) :
    ∀ (l : List Bool) (s : WState), s.pc ≠ PC.exited →
      (run N s l).1.pc = PC.exited →
      (run N s l).2.filter isSummary =
        [Ev.summary (run N s l).1.requestCount N (run N s l).1.receivedCount
          (run N s l).1.sentCount]
  | [], s, hne, hex => absurd hex hne
  | b :: bs, s, hne, hex => by
      by_cases hc : s.pc = PC.outerFlag ∧ b = false
      · obtain ⟨hpc, hb⟩ := hc
        subst hb
        have hemit := step_summary_emit N s hpc
        have hrest := run_exited N { s with pc := PC.exited } rfl bs
        rw [run_cons, hemit]
        simp [hrest, isSummary]
      · have hnone := step_summary_none N s b hc
        have hne2 : (step N s b).1.pc ≠ PC.exited := step_pc_ne N s b hne hc
        have hex2 : (run N (step N s b).1 bs).1.pc = PC.exited := by
          rw [run_cons] at hex; exact hex
        have ih := one_summary N bs (step N s b).1 hne2 hex2
        rw [run_cons]
        simp [List.filter_append, hnone, ih]

theorem step_false_no_attempt (N : Nat) (s : WState)
    (h : isFlagPC s.pc = true) :
    (step N s false).2.filter isAttempt = [] := by
  cases hpc : s.pc <;> simp [isFlagPC, hpc] at h ⊢ <;>
    simp [step, hpc, isAttempt]

theorem step_false_flag (N : Nat) (s : WState) (h : isFlagPC s.pc = true) :
    isFlagPC (step N s false).1.pc = true ∨ (step N s false).1.pc = PC.exited := by
  cases hpc : s.pc <;> simp [isFlagPC, hpc] at h ⊢ <;>
    simp only [step, hpc, Bool.false_eq_true, if_false]
  · simp
  · simp [isFlagPC]
  · rcases afterItem_pc s with ha | ha <;> rw [ha] <;> simp [isFlagPC]
  · rcases afterItem_pc s with ha | ha <;> rw [ha] <;> simp [isFlagPC]

/-- Shutdown lemma: from any running_flag read location, three consecutive
false flag reads drive the machine to the terminal location without any
endpoint call, emitting the summary exactly once, with the counters it had
when cancellation was observed. -/
theorem run3_false (N : Nat) (s : WState) (h : isFlagPC s.pc = true) :
    (run N s [false, false, false]).1.pc = PC.exited ∧
    (run N s [false, false, false]).2.filter isAttempt = [] ∧
    (run N s [false, false, false]).2.filter isSummary =
      [Ev.summary s.requestCount N s.receivedCount s.sentCount] := by
  cases hpc : s.pc <;> simp [isFlagPC, hpc] at h
  · simp [run, step, hpc, isAttempt, isSummary]
  · simp [run, step, hpc, isAttempt, isSummary]
  · rcases Nat.eq_zero_or_pos s.trigRecLeftToReceive with hz | hl
    · simp [run, step, hpc, afterItem, hz, isAttempt, isSummary]
    · simp [run, step, hpc, afterItem, hl, isAttempt, isSummary]
  · rcases Nat.eq_zero_or_pos s.trigRecLeftToReceive with hz | hl
    · simp [run, step, hpc, afterItem, hz, isAttempt, isSummary]
    · simp [run, step, hpc, afterItem, hl, isAttempt, isSummary]

/-- Environment inputs, in program order, for a run of the loop in which
each of the three endpoints times out exactly once while the flag is still
true, every retry then succeeds, and the flag then reads false. -/
def resultTimeoutInputs : List Bool :=
  [true, false, true, true, true, true, false, true, true, true, false,
   true, true, false]

/-- A state with control at the request-send call and a stale remainder of
a previous batch, used to exhibit claim instances. -/
def atReqSend : WState := { initState with trigRecLeftToReceive := 7, pc := PC.reqSend }

/-- A state with control at the result-send call, one item received and
not yet forwarded, used to exhibit claim instances. -/
def atSendOp : WState := { initState with receivedCount := 1, pc := PC.sendOp }

/-- A state with control at the inner receive-retry flag check, used to
exhibit claim instances. -/
def atRecvFlag : WState :=
  { initState with trigRecLeftToReceive := 1, pc := PC.recvFlag }

/-- Claim C1: every TimeoutExceeded from any of the three endpoint
operations is surfaced as exactly one warning before the retry, as long as
the flag is true.  The code violates this for the result sender: in the
run below one result-send timeout occurs while the flag still reads true
at the next check, yet the trace holds no warning naming the result
sender (the catch block at source lines 179-183 contains only comments),
while the request-send and data-receive timeouts each produced exactly
one warning. -/
theorem C1_result_timeout_absorbed_without_warning :
    ((run 1 initState resultTimeoutInputs).2.filter
        (fun e => e == Ev.attempt EP.resultSender false)).length = 1 ∧
    ((run 1 initState resultTimeoutInputs).2.filter
        (fun e => e == Ev.warn EP.resultSender)).length = 0 ∧
    ((run 1 initState resultTimeoutInputs).2.filter
        (fun e => e == Ev.warn EP.requestSender)).length = 1 ∧
    ((run 1 initState resultTimeoutInputs).2.filter
        (fun e => e == Ev.warn EP.dataReceiver)).length = 1 ∧
    (run 1 initState resultTimeoutInputs).1.pc = PC.exited := by
  decide

/-- Claim C2: for every batch size N at least 1 and every point reachable
during one execution of the worker loop, the cumulative item counter
equals N times the request counter. -/
theorem C2_requested_eq_batch_times_requests (N : Nat) (s : WState)
    (_hN : 1 ≤ N) (hs : Reachable N s) :
    s.requestedTRCount = N * s.requestCount :=
  (reachable_inv N hs).1

theorem C2_witness :
    1 ≤ 1 ∧
    (run 1 initState [true, true]).1.requestedTRCount =
      1 * (run 1 initState [true, true]).1.requestCount :=
  ⟨by decide,
   C2_requested_eq_batch_times_requests 1 _ (by decide)
     (reachable_run 1 Reachable.init [true, true])⟩

/-- Claim C3: when the cancellation flag reads false at any of the four
flag-check locations, that step performs no endpoint operation, control
moves to another flag check or to the terminal location, and, for the
outer check in particular, the machine goes to the terminal location so no
send or receive can occur in that iteration. -/
theorem C3_flag_false_no_endpoint_operation (N : Nat) (s : WState)
    (h : isFlagPC s.pc = true) :
    (step N s false).2.filter isAttempt = [] ∧
    (isFlagPC (step N s false).1.pc = true ∨
      (step N s false).1.pc = PC.exited) ∧
    (s.pc = PC.outerFlag → (step N s false).1.pc = PC.exited) :=
  ⟨step_false_no_attempt N s h, step_false_flag N s h,
   fun hpc => by rw [step_summary_emit N s hpc]⟩

theorem C3_witness :
    isFlagPC initState.pc = true ∧
    ((step 1 initState false).2.filter isAttempt = [] ∧
     (isFlagPC (step 1 initState false).1.pc = true ∨
       (step 1 initState false).1.pc = PC.exited) ∧
     (initState.pc = PC.outerFlag →
       (step 1 initState false).1.pc = PC.exited)) :=
  ⟨by decide, C3_flag_false_no_endpoint_operation 1 initState (by decide)⟩

/-- Claim C4: the request counters change only when the request send
succeeds; a request-send timeout and a false flag at the outer check each
leave all four counters unchanged. -/
theorem C4_counters_unchanged_without_request_success (N : Nat)
    (s : WState) :
    (s.pc = PC.reqSend → counters (step N s false).1 = counters s) ∧
    (s.pc = PC.outerFlag → counters (step N s false).1 = counters s) ∧
    (∀ b : Bool,
      (step N s b).1.requestCount ≠ s.requestCount ∨
        (step N s b).1.requestedTRCount ≠ s.requestedTRCount →
      s.pc = PC.reqSend ∧ b = true) := by
  refine ⟨?_, ?_, ?_⟩
  · intro hpc
    simp [step, hpc, counters]
  · intro hpc
    simp [step, hpc, counters]
  · intro b h
    cases hpc : s.pc <;> cases b <;> simp [step, hpc] at h ⊢

theorem C4_witness :
    counters (step 1 atReqSend false).1 = counters atReqSend :=
  (C4_counters_unchanged_without_request_success 1 atReqSend).1 rfl

/-- Claim C5: every run of the worker loop that reaches its exit emits
the final summary exactly once; the summary carries the final request,
received and sent counters and the per-request batch size, from which the
cumulative item counter is recovered exactly as N times the request
counter (with the source value N = 1 it equals the request counter). -/
theorem C5_exactly_one_summary (N : Nat) (l : List Bool)
    (h : (run N initState l).1.pc = PC.exited) :
    (run N initState l).2.filter isSummary =
      [Ev.summary (run N initState l).1.requestCount N
        (run N initState l).1.receivedCount
        (run N initState l).1.sentCount] ∧
    (run N initState l).1.requestedTRCount =
      N * (run N initState l).1.requestCount :=
  ⟨one_summary N l initState (by decide) h, (inv_run N (inv_init N) l).1⟩

theorem C5_witness :
    (run 1 initState [false]).1.pc = PC.exited ∧
    ((run 1 initState [false]).2.filter isSummary =
      [Ev.summary (run 1 initState [false]).1.requestCount 1
        (run 1 initState [false]).1.receivedCount
        (run 1 initState [false]).1.sentCount] ∧
     (run 1 initState [false]).1.requestedTRCount =
       1 * (run 1 initState [false]).1.requestCount) :=
  ⟨by decide, C5_exactly_one_summary 1 [false] (by decide)⟩

/-- Claim C6: whenever the loop re-enters the request phase and the
request send succeeds, the remaining-count is set to the full batch size
N, whatever remainder of the previous batch was still pending. -/
theorem C6_reenter_request_resets_remainder (N : Nat) (s : WState)
    (h : s.pc = PC.reqSend) :
    (step N s true).1.trigRecLeftToReceive = N := by
  simp [step, h]

theorem C6_witness : (step 5 atReqSend true).1.trigRecLeftToReceive = 5 :=
  C6_reenter_request_resets_remainder 5 atReqSend rfl

/-- Claim C7: after a successful receive, control enters the result-send
stage immediately; while the flag reads true the send stage is re-entered
on every timeout with no counter change and no retry limit, and the sent
counter is incremented exactly once, precisely on a successful result
send. -/
theorem C7_send_stage_retries_until_success (N : Nat) (s : WState) :
    (s.pc = PC.recvOp → (step N s true).1.pc = PC.sendFlag) ∧
    (s.pc = PC.sendFlag → (step N s true).1.pc = PC.sendOp) ∧
    (s.pc = PC.sendOp → (step N s false).1.pc = PC.sendFlag ∧
      counters (step N s false).1 = counters s) ∧
    (s.pc = PC.sendOp → (step N s true).1.sentCount = s.sentCount + 1) ∧
    (∀ b : Bool, (step N s b).1.sentCount ≠ s.sentCount →
      s.pc = PC.sendOp ∧ b = true ∧
      (step N s b).1.sentCount = s.sentCount + 1) := by
  refine ⟨?_, ?_, ?_, ?_, ?_⟩
  · intro hpc
    simp [step, hpc]
  · intro hpc
    simp [step, hpc]
  · intro hpc
    simp [step, hpc, counters]
  · intro hpc
    simp [step, hpc]
  · intro b h
    cases hpc : s.pc <;> cases b <;> simp [step, hpc] at h ⊢

theorem C7_witness :
    (step 1 atSendOp false).1.pc = PC.sendFlag ∧
    counters (step 1 atSendOp false).1 = counters atSendOp :=
  (C7_send_stage_retries_until_success 1 atSendOp).2.2.1 rfl

/-- Claim C8: the four counters are zero at loop entry and no step of the
machine ever decreases any of them. -/
theorem C8_counters_start_zero_and_never_decrease :
    counters initState = (0, 0, 0, 0) ∧
    ∀ (N : Nat) (s : WState) (b : Bool),
      s.requestCount ≤ (step N s b).1.requestCount ∧
      s.requestedTRCount ≤ (step N s b).1.requestedTRCount ∧
      s.receivedCount ≤ (step N s b).1.receivedCount ∧
      s.sentCount ≤ (step N s b).1.sentCount := by
  refine ⟨rfl, ?_⟩
  intro N s b
  cases hpc : s.pc <;> cases b <;> simp [step, hpc]

/-- Claim C9: at every reachable point of one execution, the sent counter
is at most the received counter, which is at most N times the request
counter. -/
theorem C9_forwarded_le_received_le_requested (N : Nat) (s : WState)
    (hs : Reachable N s) :
    s.sentCount ≤ s.receivedCount ∧
    s.receivedCount ≤ N * s.requestCount := by
  obtain ⟨h1, h2, h3, h4, h5⟩ := reachable_inv N hs
  exact ⟨h2, le_trans (Nat.le_add_right _ _) h3⟩

theorem C9_witness :
    (run 1 initState [true, true, true, true]).1.sentCount ≤
      (run 1 initState [true, true, true, true]).1.receivedCount ∧
    (run 1 initState [true, true, true, true]).1.receivedCount ≤
      1 * (run 1 initState [true, true, true, true]).1.requestCount :=
  C9_forwarded_le_received_le_requested 1 _
    (reachable_run 1 Reachable.init [true, true, true, true])

/-- Claim C10: from any flag-check location, consecutive false flag reads
drive the loop to its terminal location in at most three steps with no
further endpoint call, emitting the summary with the counters held when
cancellation was observed. -/
theorem C10_cancel_reaches_summary_without_endpoint_calls (N : Nat)
    (s : WState) (h : isFlagPC s.pc = true) :
    (run N s [false, false, false]).1.pc = PC.exited ∧
    (run N s [false, false, false]).2.filter isAttempt = [] ∧
    (run N s [false, false, false]).2.filter isSummary =
      [Ev.summary s.requestCount N s.receivedCount s.sentCount] :=
  run3_false N s h

theorem C10_witness :
    isFlagPC atRecvFlag.pc = true ∧
    ((run 1 atRecvFlag [false, false, false]).1.pc = PC.exited ∧
     (run 1 atRecvFlag [false, false, false]).2.filter isAttempt = [] ∧
     (run 1 atRecvFlag [false, false, false]).2.filter isSummary =
       [Ev.summary atRecvFlag.requestCount 1 atRecvFlag.receivedCount
         atRecvFlag.sentCount]) :=
  ⟨by decide,
   C10_cancel_reaches_summary_without_endpoint_calls 1 atRecvFlag
     (by decide)⟩

end FakeHLF
